import Mathlib

/-!
Verification of the two CI scripts of this repository: the re-export
surface extractor (`scripts/check_import_mappings.py`) and the diff
linter (`scripts/check_pr_imports.py`, modelled from the spec since only
its tests are in the repository).  Strings are embedded as lists of
characters so that every definition evaluates by kernel reduction.
-/

/-- Strings of the Python scripts, embedded as lists of characters. -/
abbrev Str := List Char

/-- Character-level prefix test: `strStarts p s` is true when the
pattern `p` is an initial segment of `s` (Python `s.startswith(p)`). -/
def strStarts : Str → Str → Bool
  | [], _ => true
  | _ :: _, [] => false
  | p :: ps, c :: cs => p = c && strStarts ps cs

/-- One value of an entry of `langchain_core_imports`: the dict
`{"module": ..., "original_name": ...}` built in `visit_ImportFrom`. -/
structure ImportRecord where
  module : Str
  original_name : Str
deriving DecidableEq, Repr

/-- A Python dict with string keys, embedded as an association list in
which every key occurs at most once. -/
abbrev DictIR := List (Str × ImportRecord)

/-- Dict lookup (`d[k]` / `k in d`). -/
def dlookup (k : Str) : DictIR → Option ImportRecord
  | [] => none
  | (k', v) :: rest => if k' = k then some v else dlookup k rest

/-- Dict assignment `d[k] = v`: the new binding shadows any old binding
of `k` and every other key keeps its value. -/
def dinsert (k : Str) (v : ImportRecord) (m : DictIR) : DictIR :=
  (k, v) :: m.filter (fun p => p.1 ≠ k)

/-- A Python constant (`ast.Constant`), as it can occur inside a literal
`__all__` list.  Only string and small scalar constants are
distinguished; everything else is collapsed into `otherConst`. -/
inductive PyConst where
  | str (s : Str)
  | int (n : Int)
  | boolConst (b : Bool)
  | noneConst
  | otherConst
deriving DecidableEq, Repr

/-- One `ast.alias` of an import statement: the imported name and the
optional `as` alias. -/
structure PyAlias where
  name : Str
  asname : Option Str
deriving DecidableEq, Repr

/-- The local binding produced by an alias: the alias when present,
otherwise the original name (`alias.asname if alias.asname else
alias.name`). -/
def localName (al : PyAlias) : Str :=
  match al.asname with
  | some a => a
  | none => al.name

/-- The Python expressions the visitor inspects: assignment targets
(`ast.Name`) and assignment values (`ast.List`, `ast.Tuple`,
`ast.Constant`); every other expression kind is `otherExpr`. -/
inductive PyExpr where
  | name (id : Str)
  | constant (c : PyConst)
  | listLit (elts : List PyExpr)
  | tupleLit (elts : List PyExpr)
  | otherExpr
deriving Repr

/-- The Python statements relevant to `ImportVisitor`.  `compound`
stands for any statement with nested statement children (`if`, `try`,
`for`, `with`, `def`, `class`, ...), through which
`ast.NodeVisitor.generic_visit` recurses; `augAssign` is `__all__ +=
...`; `otherStmt` is any other leaf statement. -/
inductive PyStmt where
  | importFrom (module : Option Str) (names : List PyAlias)
  | assign (targets : List PyExpr) (value : PyExpr)
  | augAssign (target : PyExpr) (value : PyExpr)
  | compound (body : List PyStmt)
  | otherStmt
deriving Repr

/-- The two accumulators of `analyze_init_file` that `ImportVisitor`
mutates. -/
structure AnalyzerState where
  langchain_core_imports : DictIR
  all_exports : List PyConst
deriving DecidableEq, Repr

/-- The guard of `visit_ImportFrom`: `node.module and
node.module.startswith("langchain_core")`. -/
def qualifiesModule (module : Option Str) : Bool :=
  match module with
  | some m => strStarts "langchain_core".data m
  | none => false

/-- The loop body of `visit_ImportFrom`: for each alias, store
`{"module": node.module, "original_name": alias.name}` under the local
binding. -/
def bindImports (module : Str) (names : List PyAlias) (m : DictIR) : DictIR :=
  names.foldl (fun acc al => dinsert (localName al) ⟨module, al.name⟩ acc) m

/-- The elements `visit_Assign` extends `all_exports` with: `elt.value
for elt in node.value.elts if isinstance(elt, ast.Constant)`. -/
def listConstants (elts : List PyExpr) : List PyConst :=
  elts.filterMap (fun e =>
    match e with
    | .constant c => some c
    | _ => none)

/-- The loop body of `visit_Assign`: for each target that is the name
`__all__`, when the assigned value is a literal list, extend
`all_exports` with the constants of the list. -/
def assignExports (targets : List PyExpr) (value : PyExpr)
    (ex : List PyConst) : List PyConst :=
  targets.foldl (fun acc t =>
    match t, value with
    | .name id, .listLit elts =>
        if id = "__all__".data then acc ++ listConstants elts else acc
    | _, _ => acc) ex

mutual

/-- `ImportVisitor.visit` on one statement.  `visit_ImportFrom` and
`visit_Assign` run their handlers and do not recurse; every other
statement is handled by `generic_visit`, which recurses into nested
statements, so the handlers also fire on statements nested inside
compound statements. -/
def visitStmt (st : AnalyzerState) : PyStmt → AnalyzerState
  | .importFrom module names =>
      if qualifiesModule module then
        match module with
        | some m =>
            { st with
              langchain_core_imports :=
                bindImports m names st.langchain_core_imports }
        | none => st
      else st
  | .assign targets value =>
      { st with all_exports := assignExports targets value st.all_exports }
  | .augAssign _ _ => st
  | .compound body => visitStmts st body
  | .otherStmt => st

/-- Visiting a statement sequence in order (the children of a module or
of a compound statement). -/
def visitStmts (st : AnalyzerState) : List PyStmt → AnalyzerState
  | [] => st
  | s :: rest => visitStmts (visitStmt st s) rest

end

/-- `visitor.visit(tree)` on a whole parsed module, starting from empty
accumulators. -/
def analyzeModule (stmts : List PyStmt) : AnalyzerState :=
  visitStmts ⟨[], []⟩ stmts

/-- One iteration of the intersection loop of `analyze_init_file`: `if
export in langchain_core_imports: exported_from_core[export] =
langchain_core_imports[export]`.  A non-string constant is never a key
of a dict with string keys. -/
def exportStep (imports : DictIR) (acc : DictIR) (e : PyConst) : DictIR :=
  match e with
  | .str s =>
      match dlookup s imports with
      | some v => dinsert s v acc
      | none => acc
  | _ => acc

/-- The intersection loop of `analyze_init_file` over `all_exports`. -/
def buildExported (imports : DictIR) (exports : List PyConst) : DictIR :=
  exports.foldl (exportStep imports) []

/-- The record `analyze_init_file` returns. -/
structure FileAnalysis where
  file : Str
  error : Option Str
  langchain_core_imports : DictIR
  all_exports : List PyConst
  exported_from_core : DictIR
deriving DecidableEq, Repr

/-- `analyze_init_file`.  Reading and parsing the file are embedded as
an `Except` input: `.error e` is a raised `OSError`/`SyntaxError`/
`ValueError` with message `e`, `.ok stmts` the parsed syntax tree.  The
relative path is taken as given (path arithmetic is external). -/
def analyze_init_file (relPath : Str)
    (parsed : Except Str (List PyStmt)) : FileAnalysis :=
  match parsed with
  | .error e => ⟨relPath, some e, [], [], []⟩
  | .ok stmts =>
      let st := analyzeModule stmts
      ⟨relPath, none, st.langchain_core_imports, st.all_exports,
        buildExported st.langchain_core_imports st.all_exports⟩

/-- Python truthiness of the result of `shutil.which("uv")`: false for
`None` and for an empty string (`if not uv_path`). -/
def whichTruthy : Option Str → Bool
  | none => false
  | some p => !p.isEmpty

/-- `install_packages`.  The two external effects are embedded as
inputs: `uv_path` is the result of `shutil.which("uv")` and
`returncode` the exit status of the `uv pip install` subprocess.  A
raised exception is `.error` with the message, a normal return is
`.ok ()`. -/
def install_packages (uv_path : Option Str) (returncode : Int) :
    Except Str Unit :=
  if !(whichTruthy uv_path) then .error "uv not found in PATH".data
  else if returncode ≠ 0 then .error "Failed to install packages".data
  else .ok ()

/-- A filesystem entry, used to embed the directory tree that
`find_init_files` scans. -/
inductive FSTree where
  | file (name : Str)
  | dir (name : Str) (children : List FSTree)

/-- The name of a filesystem entry. -/
def entryName : FSTree → Str
  | .file n => n
  | .dir n _ => n

/-- The file name the scripts look for. -/
def initName : Str := "__init__.py".data

mutual

/-- `rglob("__init__.py")` restricted to one subtree: every entry (file
or directory, per pathlib glob semantics) named `__init__.py`, as its
path segments relative to the glob root; the entry itself matches, and
for a directory the search also descends into it. -/
def rglobInitTree : FSTree → List (List Str)
  | .file n => if n = initName then [[n]] else []
  | .dir n children =>
      (if n = initName then [[n]] else []) ++
        (rglobInitList children).map (fun p => n :: p)

/-- `rglob("__init__.py")` over a directory listing. -/
def rglobInitList : List FSTree → List (List Str)
  | [] => []
  | t :: rest => rglobInitTree t ++ rglobInitList rest

end

/-- The skip condition of `find_init_files`: `any(part.startswith("_")
and part != "__init__.py" for part in parts)` where `parts` are the
path segments relative to the `langchain` directory without the final
file name (`parts[:-1]`). -/
def skipPrivate (p : List Str) : Bool :=
  p.dropLast.any (fun part => strStarts "_".data part && part ≠ initName)

/-- `find_init_files`.  The input is the listing of the temporary
install directory (`package_path`); the result is the list of matched
paths, as segments relative to the `langchain` directory, in glob
order.  When no entry named `langchain` exists, or it is not a
directory, the result is empty. -/
def find_init_files (root : List FSTree) : List (List Str) :=
  match root.find? (fun t => entryName t = "langchain".data) with
  | some (.dir _ children) =>
      (rglobInitList children).filter (fun p => !(skipPrivate p))
  | some (.file _) => []
  | none => []

/-- The `metadata` object of `import_mappings.json`. -/
structure ArtifactMetadata where
  langchain_version : Str
  langchain_core_version : Str
  total_init_files : Nat
deriving DecidableEq, Repr

/-- The `summary` object of `import_mappings.json`. -/
structure ArtifactSummary where
  total_langchain_core_reexports : Nat
  modules_with_core_reexports : Nat
deriving DecidableEq, Repr

/-- The persisted artifact `import_mappings.json`. -/
structure MappingArtifact where
  metadata : ArtifactMetadata
  analysis : List FileAnalysis
  summary : ArtifactSummary
deriving DecidableEq, Repr

/-- The filter of `main`: a record enters the `analysis` array only
when one of its three collection fields is truthy (non-empty). -/
def keepAnalysis (fa : FileAnalysis) : Bool :=
  !fa.langchain_core_imports.isEmpty || !fa.all_exports.isEmpty ||
    !fa.exported_from_core.isEmpty

/-- The aggregation loop of `main`: analyze every discovered init file,
keep only records with a truthy collection field, and compute the
summary over the kept records with a truthy `exported_from_core`.  Each
discovered file is embedded as its relative path together with the
outcome of reading and parsing it. -/
def buildResults (lcVer lcCoreVer : Str)
    (inputs : List (Str × Except Str (List PyStmt))) : MappingArtifact :=
  let analyses := inputs.map (fun pr => analyze_init_file pr.1 pr.2)
  let kept := analyses.filter keepAnalysis
  let withReexports := kept.filter (fun fa => !fa.exported_from_core.isEmpty)
  { metadata := ⟨lcVer, lcCoreVer, inputs.length⟩
    analysis := kept
    summary :=
      ⟨(withReexports.map (fun fa => fa.exported_from_core.length)).sum,
        withReexports.length⟩ }

/-!
The diff linter `scripts/check_pr_imports.py` is not part of the
repository source; only its unit tests are.  The definitions below are
modelled from the spec (sections 4.3 and 4.4) and checked against the
expectations of `tests/unit_tests/test_check_pr_imports.py`.
-/

/-- Decimal digits to a number. -/
def digitsToNat (ds : Str) : Nat :=
  ds.foldl (fun n c => 10 * n + (c.toNat - 48)) 0

/-- Parse a non-empty digit run at the front of a string, returning the
number and the rest; `none` when no digit is present. -/
def parseNatStr (cs : Str) : Option (Nat × Str) :=
  let ds := cs.takeWhile Char.isDigit
  if ds.isEmpty then none
  else some (digitsToNat ds, cs.dropWhile Char.isDigit)

/-- Skip an optional `,<count>` part of a hunk header; a comma followed
by no digit is malformed. -/
def skipCount (cs : Str) : Option Str :=
  match cs with
  | ',' :: rest =>
      let ds := rest.takeWhile Char.isDigit
      if ds.isEmpty then none else some (rest.dropWhile Char.isDigit)
  | _ => some cs

/-- Modelled from the spec: parse a hunk header `@@ -<old_start>
[,<old_count>] +<new_start>[,<new_count>] @@...` and return
`new_start`; any malformed header yields `none` and is treated as a
non-hunk line. -/
def parseHunkHeader (l : Str) : Option Nat :=
  if strStarts "@@ -".data l then
    match parseNatStr (l.drop 4) with
    | none => none
    | some (_, rest1) =>
        match skipCount rest1 with
        | none => none
        | some rest2 =>
            if strStarts " +".data rest2 then
              match parseNatStr (rest2.drop 2) with
              | none => none
              | some (newStart, rest3) =>
                  match skipCount rest3 with
                  | none => none
                  | some rest4 =>
                      if strStarts " @@".data rest4 then some newStart
                      else none
            else none
  else none

/-- One added line reported by the diff parser. -/
structure AddedLine where
  file : Option Str
  line_number : Nat
  content : Str
deriving DecidableEq, Repr

/-- The scanner state of the diff parser: the current file, the cursor
into the new file's line numbering, and the added lines collected so
far. -/
structure DiffState where
  current_file : Option Str
  current_line : Nat
  added : List AddedLine
deriving DecidableEq, Repr

/-- Strip a leading `b/` from the path of a `+++` header. -/
def stripB (cs : Str) : Str :=
  if strStarts "b/".data cs then cs.drop 2 else cs

/-- Modelled from the spec: one step of the diff scanner.  A `+++`
header sets the current file (with the `b/` prefix stripped); a hunk
header sets the cursor to `new_start`; a `+` line is emitted at the
cursor and advances it; a `-` line neither emits nor advances; every
other line is context and advances the cursor. -/
def diffStep (st : DiffState) (l : Str) : DiffState :=
  if strStarts "+++ ".data l then
    { st with current_file := some (stripB (l.drop 4)) }
  else
    match parseHunkHeader l with
    | some newStart => { st with current_line := newStart }
    | none =>
        match l with
        | '+' :: content =>
            { st with
              added :=
                st.added ++ [⟨st.current_file, st.current_line, content⟩],
              current_line := st.current_line + 1 }
        | '-' :: _ => st
        | _ => { st with current_line := st.current_line + 1 }

/-- Split a text into its lines at newline characters. -/
def splitLines : Str → List Str
  | [] => [[]]
  | c :: cs =>
      if c = '\n' then [] :: splitLines cs
      else
        match splitLines cs with
        | l :: ls => (c :: l) :: ls
        | [] => [[c]]

/-- Modelled from the spec: the diff parser, a sequential scan of the
lines of the diff text collecting every added line with its new-file
line number. -/
def parseAddedLines (diff : Str) : List AddedLine :=
  ((splitLines diff).foldl diffStep ⟨none, 0, []⟩).added

/-- One issue reported by the import matcher for a single line. -/
structure ImportIssue where
  original : Str
  suggested : Str
  reason : Str
deriving DecidableEq, Repr

/-- The flattened lookup table: fully qualified lower-level path to
fully qualified higher-level path. -/
abbrev LookupTable := List (Str × Str)

/-- Lookup in the flattened table. -/
def tlookup (k : Str) : LookupTable → Option Str
  | [] => none
  | (k', v) :: rest => if k' = k then some v else tlookup k rest

/-- Recognize `from <dotted.path> import <rest>` in one line of source
text, returning the dotted path and the verbatim text after
`import `. -/
def parseFromImport (l : Str) : Option (Str × Str) :=
  if strStarts "from ".data l then
    let rest := l.drop 5
    let dotted := rest.takeWhile (fun c => c ≠ ' ')
    let after := rest.drop dotted.length
    if strStarts " import ".data after then some (dotted, after.drop 8)
    else none
  else none

/-- Split a text at commas. -/
def splitCommas : Str → List Str
  | [] => [[]]
  | c :: cs =>
      if c = ',' then [] :: splitCommas cs
      else
        match splitCommas cs with
        | l :: ls => (c :: l) :: ls
        | [] => [[c]]

/-- Drop spaces at both ends. -/
def trimSpaces (s : Str) : Str :=
  ((s.dropWhile (fun c => c = ' ')).reverse.dropWhile (fun c => c = ' ')).reverse

/-- Split one item of an import list into its base name and optional
`as` alias. -/
def importItem (s : Str) : Str × Option Str :=
  let t := trimSpaces s
  let base := t.takeWhile (fun c => c ≠ ' ')
  let rest := trimSpaces (t.drop base.length)
  if strStarts "as ".data rest then (base, some (trimSpaces (rest.drop 3)))
  else (base, none)

/-- Split a dotted path at its last dot into module and name; a path
without a dot has an empty module part. -/
def splitLastDot (s : Str) : Str × Str :=
  let revTail := s.reverse.takeWhile (fun c => c ≠ '.')
  if revTail.length = s.length then ([], s)
  else (s.take (s.length - revTail.length - 1), revTail.reverse)

/-- Modelled from the spec: the symbol-level fallback of the matcher,
used when the module itself has no table entry.  The first imported
name whose qualified path `<dotted>.<name>` is a key produces a
rewritten single-name import (the source returns at most one issue). -/
def symbolIssue (line dotted names : Str) (table : LookupTable) :
    List ImportIssue :=
  match ((splitCommas names).map importItem).findSome?
      (fun it =>
        match tlookup (dotted ++ '.' :: it.1) table with
        | some mapped => some (mapped, it.2)
        | none => none) with
  | some (mapped, al) =>
      let mm := (splitLastDot mapped).1
      let mn := (splitLastDot mapped).2
      let tail := match al with
        | some a => " as ".data ++ a
        | none => ([] : Str)
      [⟨line, "from ".data ++ mm ++ " import ".data ++ mn ++ tail,
        "Import from ".data ++ mm ++ " instead".data⟩]
  | none => []

/-- Modelled from the spec: the import matcher for one added line.  A
`from` import whose module is a key of the table rewrites only the
module component and keeps the name list verbatim; otherwise the
symbol-level fallback runs.  A plain `import <dotted.path>` whose path
is a key rewrites the path.  Anything else yields no issue. -/
def checkImportLine (line : Str) (table : LookupTable) :
    List ImportIssue :=
  match parseFromImport line with
  | some (dotted, names) =>
      match tlookup dotted table with
      | some mapped =>
          [⟨line, "from ".data ++ mapped ++ " import ".data ++ names,
            "Import from ".data ++ mapped ++ " instead of ".data ++ dotted⟩]
      | none => symbolIssue line dotted names table
  | none =>
      if strStarts "import ".data line then
        let dotted := trimSpaces (line.drop 7)
        match tlookup dotted table with
        | some mapped =>
            [⟨line, "import ".data ++ mapped,
              "Import ".data ++ mapped ++ " instead of ".data ++ dotted⟩]
        | none => []
      else []

/-- One issue reported for a whole diff. -/
structure DiffIssue where
  file : Str
  line : Nat
  original : Str
  suggested : Str
  reason : Str
deriving DecidableEq, Repr

/-- Modelled from the spec: `analyze_diff`, the composition of the diff
parser and the import matcher over every added line that has a current
file. -/
def analyze_diff (diff : Str) (table : LookupTable) : List DiffIssue :=
  (parseAddedLines diff).flatMap (fun al =>
    match al.file with
    | some f =>
        (checkImportLine al.content table).map
          (fun i => ⟨f, al.line_number, i.original, i.suggested, i.reason⟩)
    | none => [])

/-- The directory listing `find_init_files` actually globs: the
children of the entry named `langchain`, when that entry is a
directory. -/
def langchainChildren (root : List FSTree) : Option (List FSTree) :=
  match root.find? (fun t => entryName t = "langchain".data) with
  | some (.dir _ children) => some children
  | _ => none

/-! Helper lemmas about the embedded dict operations. -/

lemma mem_dinsert {kv : Str × ImportRecord} {k : Str} {v : ImportRecord}
    {m : DictIR} (h : kv ∈ dinsert k v m) : kv = (k, v) ∨ kv ∈ m := by
  unfold dinsert at h
  rcases List.mem_cons.mp h with h | h
  · exact Or.inl h
  · exact Or.inr (List.mem_of_mem_filter h)

lemma foldl_exportStep_mem (imports : DictIR) :
    ∀ (l : List PyConst) (acc : DictIR) (kv : Str × ImportRecord),
      kv ∈ l.foldl (exportStep imports) acc →
      kv ∈ acc ∨
        (dlookup kv.1 imports = some kv.2 ∧ PyConst.str kv.1 ∈ l) := by
  intro l
  induction l with
  | nil =>
      intro acc kv h
      exact Or.inl h
  | cons e rest ih =>
      intro acc kv h
      rw [List.foldl_cons] at h
      rcases ih (exportStep imports acc e) kv h with hacc | ⟨hlook, hmem⟩
      · cases e with
        | str s =>
            cases hs : dlookup s imports with
            | none =>
                simp [exportStep, hs] at hacc
                exact Or.inl hacc
            | some w =>
                simp [exportStep, hs] at hacc
                rcases mem_dinsert hacc with heq | hin
                · refine Or.inr ⟨?_, ?_⟩
                  · rw [heq]
                    exact hs
                  · rw [heq]
                    exact List.mem_cons_self _ _
                · exact Or.inl hin
        | int n =>
            simp [exportStep] at hacc
            exact Or.inl hacc
        | boolConst b =>
            simp [exportStep] at hacc
            exact Or.inl hacc
        | noneConst =>
            simp [exportStep] at hacc
            exact Or.inl hacc
        | otherConst =>
            simp [exportStep] at hacc
            exact Or.inl hacc
      · exact Or.inr ⟨hlook, List.mem_cons_of_mem _ hmem⟩

lemma exportStep_preserves (imports : DictIR) {s : Str} {v : ImportRecord}
    (hv : dlookup s imports = some v) (acc : DictIR) (e : PyConst)
    (h : (s, v) ∈ acc) : (s, v) ∈ exportStep imports acc e := by
  cases e with
  | str s' =>
      cases hs' : dlookup s' imports with
      | none => simpa [exportStep, hs'] using h
      | some w =>
          simp only [exportStep, hs']
          by_cases heq : s' = s
          · subst heq
            have hwv : w = v := Option.some.inj (hs'.symm.trans hv)
            subst hwv
            unfold dinsert
            exact List.mem_cons_self _ _
          · unfold dinsert
            refine List.mem_cons_of_mem _ (List.mem_filter.mpr ⟨h, ?_⟩)
            simp only [decide_eq_true_eq]
            exact fun hss => heq hss.symm
  | int n => simpa [exportStep] using h
  | boolConst b => simpa [exportStep] using h
  | noneConst => simpa [exportStep] using h
  | otherConst => simpa [exportStep] using h

lemma foldl_exportStep_preserves (imports : DictIR) {s : Str}
    {v : ImportRecord} (hv : dlookup s imports = some v) :
    ∀ (l : List PyConst) (acc : DictIR),
      (s, v) ∈ acc → (s, v) ∈ l.foldl (exportStep imports) acc := by
  intro l
  induction l with
  | nil => intro acc h; exact h
  | cons e rest ih =>
      intro acc h
      rw [List.foldl_cons]
      exact ih _ (exportStep_preserves imports hv acc e h)

lemma foldl_exportStep_complete (imports : DictIR) {s : Str}
    {v : ImportRecord} (hv : dlookup s imports = some v) :
    ∀ (l : List PyConst) (acc : DictIR),
      PyConst.str s ∈ l → (s, v) ∈ l.foldl (exportStep imports) acc := by
  intro l
  induction l with
  | nil => intro acc h; simp at h
  | cons e rest ih =>
      intro acc h
      rw [List.foldl_cons]
      rcases List.mem_cons.mp h with heq | hin
      · have hstep : exportStep imports acc e = dinsert s v acc := by
          rw [← heq]
          simp [exportStep, hv]
        rw [hstep]
        refine foldl_exportStep_preserves imports hv rest _ ?_
        unfold dinsert
        exact List.mem_cons_self _ _
      · exact ih _ hin

/-- C5: for every record produced by `analyze_init_file`,
`exported_from_core` equals the key-intersection of
`langchain_core_imports` and `all_exports` with values taken from
`langchain_core_imports`: an entry `(k, v)` is in `exported_from_core`
exactly when `k` maps to `v` in `langchain_core_imports` and `k` occurs
(as a string constant) in `all_exports`.  This holds for error records
as well, whose collections are all empty. -/
theorem exported_from_core_invariant (relPath : Str)
    (parsed : Except Str (List PyStmt)) (k : Str) (v : ImportRecord) :
    (k, v) ∈ (analyze_init_file relPath parsed).exported_from_core ↔
      dlookup k
          (analyze_init_file relPath parsed).langchain_core_imports =
        some v ∧
      PyConst.str k ∈ (analyze_init_file relPath parsed).all_exports := by
  cases parsed with
  | error e => simp [analyze_init_file, dlookup]
  | ok stmts =>
      simp only [analyze_init_file, buildExported]
      constructor
      · intro h
        rcases foldl_exportStep_mem _ _ _ _ h with hacc | ⟨h1, h2⟩
        · simp at hacc
        · exact ⟨h1, h2⟩
      · intro ⟨h1, h2⟩
        exact foldl_exportStep_complete _ h1 _ _ h2

/-- Witness for C5 at a concrete file with one re-exported symbol: both
sides of the characterization hold and the entry is present. -/
theorem exported_from_core_invariant_witness :
    ("HumanMessage".data,
        (⟨"langchain_core.messages".data, "HumanMessage".data⟩ :
          ImportRecord)) ∈
      (analyze_init_file "langchain/messages/__init__.py".data
        (.ok
          [.importFrom (some "langchain_core.messages".data)
            [⟨"HumanMessage".data, none⟩],
           .assign [.name "__all__".data]
            (.listLit
              [.constant (.str "HumanMessage".data)])])).exported_from_core :=
  (exported_from_core_invariant "langchain/messages/__init__.py".data
      (.ok
        [.importFrom (some "langchain_core.messages".data)
          [⟨"HumanMessage".data, none⟩],
         .assign [.name "__all__".data]
          (.listLit [.constant (.str "HumanMessage".data)])])
      "HumanMessage".data
      ⟨"langchain_core.messages".data, "HumanMessage".data⟩).mpr
    ⟨by decide, by decide⟩

/-- C6: when reading or parsing the file fails, `analyze_init_file`
returns (instead of propagating the exception) a record that carries
the error message and has every collection field empty. -/
theorem analyze_init_file_error_record (p e : Str) :
    (analyze_init_file p (.error e)).error = some e ∧
    (analyze_init_file p (.error e)).langchain_core_imports = [] ∧
    (analyze_init_file p (.error e)).all_exports = [] ∧
    (analyze_init_file p (.error e)).exported_from_core = [] ∧
    (analyze_init_file p (.error e)).file = p :=
  ⟨rfl, rfl, rfl, rfl, rfl⟩

/-- C7: when two qualifying from-import statements bind the same local
name, the later statement's module and original name are the ones
recorded, whatever was imported before. -/
theorem imports_last_wins (st : AnalyzerState) (m1 m2 : Str)
    (al1 al2 : PyAlias) (h1 : qualifiesModule (some m1) = true)
    (h2 : qualifiesModule (some m2) = true)
    (_hl : localName al1 = localName al2) :
    dlookup (localName al2)
        (visitStmts st
          [.importFrom (some m1) [al1],
           .importFrom (some m2) [al2]]).langchain_core_imports =
      some ⟨m2, al2.name⟩ := by
  simp [visitStmts, visitStmt, h1, h2, bindImports]
  simp [dlookup, dinsert]

/-- Witness for C7: an aliased import of `AIMessage` as `X` followed by
a plain import of `X` leaves the second record in the map. -/
theorem imports_last_wins_witness :
    qualifiesModule (some "langchain_core.messages".data) = true ∧
    qualifiesModule (some "langchain_core.tools".data) = true ∧
    localName ⟨"AIMessage".data, some "X".data⟩ =
      localName ⟨"X".data, none⟩ ∧
    dlookup (localName ⟨"X".data, none⟩)
        (visitStmts ⟨[], []⟩
          [.importFrom (some "langchain_core.messages".data)
            [⟨"AIMessage".data, some "X".data⟩],
           .importFrom (some "langchain_core.tools".data)
            [⟨"X".data, none⟩]]).langchain_core_imports =
      some ⟨"langchain_core.tools".data, "X".data⟩ :=
  ⟨by decide, by decide, by decide,
    imports_last_wins ⟨[], []⟩ _ _ _ _ (by decide) (by decide) (by decide)⟩

/-- C9: `install_packages` returns normally exactly when `uv` was found
on the PATH and the installer subprocess exited with status zero, and
raises (an error result) exactly when `uv` is missing or the exit
status is non-zero. -/
theorem install_packages_status (uv_path : Option Str) (rc : Int) :
    (install_packages uv_path rc = .ok () ↔
      whichTruthy uv_path = true ∧ rc = 0) ∧
    ((∃ msg, install_packages uv_path rc = .error msg) ↔
      whichTruthy uv_path = false ∨ rc ≠ 0) := by
  unfold install_packages
  cases hw : whichTruthy uv_path with
  | false => simp
  | true =>
      by_cases hrc : rc = 0
      · simp [hrc]
      · simp [hrc]

/-- C3 counterexample: the guard of `visit_ImportFrom` is a plain
character-level `startswith`, so the module `langchain_corex` — which
merely starts with the character string `langchain_core` — qualifies
and contributes an import record, contrary to the claim. -/
theorem import_qualify_cex :
    qualifiesModule (some "langchain_corex".data) = true ∧
    (analyzeModule
        [.importFrom (some "langchain_corex".data)
          [⟨"Y".data, none⟩]]).langchain_core_imports =
      [("Y".data, ⟨"langchain_corex".data, "Y".data⟩)] := by
  exact ⟨by decide, by decide⟩

/-- C3 amended: a from-import contributes records exactly when its
module name starts with the character string `langchain_core` — a plain
string prefix, not a dotted-path prefix — so `langchain_core`,
`langchain_core.messages` and also `langchain_corex` qualify while
`langchain_cor` does not. -/
theorem import_qualify_amended (st : AnalyzerState) (m : Str)
    (al : PyAlias) :
    ((visitStmt st
        (.importFrom (some m) [al])).langchain_core_imports =
      if strStarts "langchain_core".data m then
        dinsert (localName al) ⟨m, al.name⟩ st.langchain_core_imports
      else st.langchain_core_imports) ∧
    strStarts "langchain_core".data "langchain_core".data = true ∧
    strStarts "langchain_core".data "langchain_core.messages".data = true ∧
    strStarts "langchain_core".data "langchain_corex".data = true ∧
    strStarts "langchain_core".data "langchain_cor".data = false := by
  refine ⟨?_, by decide, by decide, by decide, by decide⟩
  by_cases h : strStarts "langchain_core".data m = true
  · simp [visitStmt, qualifiesModule, h, bindImports]
  · rw [Bool.not_eq_true] at h
    simp [visitStmt, qualifiesModule, h, bindImports]

/-- C4 counterexample: an `__all__` assignment nested inside a compound
statement does contribute (the visitor recurses through every other
node kind), and a non-string constant element of the literal list also
contributes its value. -/
theorem all_exports_cex :
    (analyzeModule
        [.compound
          [.assign [.name "__all__".data]
            (.listLit [.constant (.str "nested".data)])]]).all_exports =
      [.str "nested".data] ∧
    (analyzeModule
        [.assign [.name "__all__".data]
          (.listLit [.constant (.int 42)])]).all_exports =
      [.int 42] := by
  exact ⟨by decide, by decide⟩

/-- C4 amended: `all_exports` receives elements from any assignment —
top-level or nested inside compound statements — to the name `__all__`
whose value is a literal list, taking the value of every element that
is a literal constant, string or not; a tuple value, a non-list value
such as a comprehension or a concatenation, and an augmented assignment
`__all__ += [...]` contribute nothing. -/
theorem all_exports_amended (st : AnalyzerState) :
    (∀ (s : PyStmt), visitStmt st (.compound [s]) = visitStmt st s) ∧
    (∀ (id : Str) (elts : List PyExpr),
      (visitStmt st (.assign [.name id] (.listLit elts))).all_exports =
        if id = "__all__".data then st.all_exports ++ listConstants elts
        else st.all_exports) ∧
    (∀ (elts : List PyExpr),
      visitStmt st (.assign [.name "__all__".data] (.tupleLit elts)) = st) ∧
    (visitStmt st (.assign [.name "__all__".data] .otherExpr) = st) ∧
    (∀ (t v : PyExpr), visitStmt st (.augAssign t v) = st) := by
  refine ⟨fun s => rfl, ?_, fun elts => rfl, rfl, fun t v => rfl⟩
  intro id elts
  by_cases h : id = "__all__".data
  · simp [visitStmt, assignExports, h]
  · simp [visitStmt, assignExports, h]

/-- C10: every record in the persisted `analysis` array has a truthy
collection field and no error marker (error records all have empty
collections and are dropped by the filter of `main`), and on a concrete
run with one failing file and one analyzable file
`metadata.total_init_files` strictly exceeds the length of the
`analysis` array. -/
theorem artifact_analysis_filter :
    (∀ (lcV lcCV : Str) (inputs : List (Str × Except Str (List PyStmt)))
        (fa : FileAnalysis),
      fa ∈ (buildResults lcV lcCV inputs).analysis →
      keepAnalysis fa = true ∧ fa.error = none) ∧
    ((buildResults "1.0.8".data "1.1.0".data
        [("langchain/bad/__init__.py".data, .error "boom".data),
         ("langchain/__init__.py".data,
           .ok
             [.assign [.name "__all__".data]
               (.listLit
                 [.constant
                   (.str "x".data)])])]).metadata.total_init_files = 2 ∧
      (buildResults "1.0.8".data "1.1.0".data
        [("langchain/bad/__init__.py".data, .error "boom".data),
         ("langchain/__init__.py".data,
           .ok
             [.assign [.name "__all__".data]
               (.listLit
                 [.constant (.str "x".data)])])]).analysis.length = 1) := by
  refine ⟨?_, by decide, by decide⟩
  intro lcV lcCV inputs fa h
  simp only [buildResults, List.mem_filter, List.mem_map] at h
  obtain ⟨⟨pr, hpr, hfa⟩, hkeep⟩ := h
  refine ⟨hkeep, ?_⟩
  rcases pr with ⟨p, parsed⟩
  cases parsed with
  | error e =>
      rw [← hfa] at hkeep
      simp [analyze_init_file, keepAnalysis] at hkeep
  | ok stmts =>
      rw [← hfa]
      rfl

/-- Witness for C10 at a run with a single analyzable file. -/
theorem artifact_analysis_filter_witness :
    ((analyze_init_file "langchain/__init__.py".data
        (.ok
          [.assign [.name "__all__".data]
            (.listLit [.constant (.str "x".data)])])) ∈
      (buildResults "1".data "2".data
        [("langchain/__init__.py".data,
          .ok
            [.assign [.name "__all__".data]
              (.listLit [.constant (.str "x".data)])])]).analysis) ∧
    (keepAnalysis
        (analyze_init_file "langchain/__init__.py".data
          (.ok
            [.assign [.name "__all__".data]
              (.listLit [.constant (.str "x".data)])])) = true ∧
      (analyze_init_file "langchain/__init__.py".data
        (.ok
          [.assign [.name "__all__".data]
            (.listLit [.constant (.str "x".data)])])).error = none) :=
  ⟨by decide,
    artifact_analysis_filter.1 "1".data "2".data
      [("langchain/__init__.py".data,
        .ok
          [.assign [.name "__all__".data]
            (.listLit [.constant (.str "x".data)])])]
      _ (by decide)⟩

/-- C8 counterexample: the underscore exemption `part != "__init__.py"`
applies to every path segment, not only to the trailing file name, so a
directory literally named `__init__.py` — whose name starts with an
underscore — is not treated as private and the file inside it is
returned, contrary to the claim. -/
theorem find_init_files_cex :
    find_init_files
        [.dir "langchain".data [.dir initName [.file initName]]] =
      [[initName], [initName, initName]] ∧
    strStarts "_".data initName = true := by
  exact ⟨by decide, by decide⟩

/-- C8 amended: `find_init_files` returns exactly the recursively
discovered `__init__.py` entries of the `langchain` directory for which
every directory segment of the relative path either does not start with
an underscore or is literally named `__init__.py`; the trailing file
name is excluded from the check. -/
theorem find_init_files_amended (root : List FSTree) (p : List Str) :
    p ∈ find_init_files root ↔
      (∃ cs, langchainChildren root = some cs ∧ p ∈ rglobInitList cs) ∧
      ∀ seg ∈ p.dropLast, strStarts "_".data seg = true → seg = initName := by
  unfold find_init_files langchainChildren
  cases hf : root.find? (fun t => entryName t = "langchain".data) with
  | none => simp
  | some t =>
      cases t with
      | file n => simp
      | dir n children =>
          simp [List.mem_filter, skipPrivate, List.any_eq_true]

/-! Helper lemmas about the diff scanner. -/

lemma strStarts_plus_cons (c : Char) (cs : Str) (hc : c ≠ '+') :
    strStarts "+++ ".data (c :: cs) = false := by
  rw [show strStarts "+++ ".data (c :: cs) =
      (decide ('+' = c) && strStarts "++ ".data cs) from rfl]
  rw [decide_eq_false (fun h => hc h.symm)]
  exact Bool.false_and _

lemma parseHunkHeader_cons (c : Char) (cs : Str) (hc : c ≠ '@') :
    parseHunkHeader (c :: cs) = none := by
  have hcond : strStarts "@@ -".data (c :: cs) = false := by
    rw [show strStarts "@@ -".data (c :: cs) =
        (decide ('@' = c) && strStarts "@ -".data cs) from rfl]
    rw [decide_eq_false (fun h => hc h.symm)]
    exact Bool.false_and _
  unfold parseHunkHeader
  rw [hcond]
  simp

lemma parseHunkHeader_starts {l : Str} {ns : Nat}
    (h : parseHunkHeader l = some ns) : strStarts "@@ -".data l = true := by
  by_contra hc
  rw [Bool.not_eq_true] at hc
  unfold parseHunkHeader at h
  rw [hc] at h
  simp at h

/-- C1: on the test diff (hunk `@@ -1,3 +1,4 @@`, one context line, one
added line, one context line) the parser reports the single added line
at new-file line number 2; and in general a hunk header sets the cursor
to `new_start` without emitting, an added line is emitted at the
current cursor and then increments it, a deleted line neither emits nor
increments, and any other non-header line increments the cursor without
emitting. -/
theorem diff_line_numbering :
    (parseAddedLines
        ("diff --git a/test.py b/test.py\nindex 1234567..abcdefg 100644\n--- a/test.py\n+++ b/test.py\n@@ -1,3 +1,4 @@\n import os\n+from langchain_core.messages import HumanMessage\n\n def main():\n").data =
      [⟨some "test.py".data, 2,
        "from langchain_core.messages import HumanMessage".data⟩]) ∧
    (∀ (st : DiffState) (l : Str) (ns : Nat),
      parseHunkHeader l = some ns →
      (diffStep st l).current_line = ns ∧ (diffStep st l).added = st.added) ∧
    (∀ (st : DiffState) (content : Str),
      strStarts "+++ ".data ('+' :: content) = false →
      diffStep st ('+' :: content) =
        ⟨st.current_file, st.current_line + 1,
          st.added ++ [⟨st.current_file, st.current_line, content⟩]⟩) ∧
    (∀ (st : DiffState) (content : Str),
      diffStep st ('-' :: content) = st) ∧
    (∀ (st : DiffState) (c : Char) (cs : Str),
      c ≠ '+' → c ≠ '-' → parseHunkHeader (c :: cs) = none →
      strStarts "+++ ".data (c :: cs) = false →
      (diffStep st (c :: cs)).current_line = st.current_line + 1 ∧
      (diffStep st (c :: cs)).added = st.added) := by
  refine ⟨by decide, ?_, ?_, fun st content => rfl, ?_⟩
  · intro st l ns h
    have hpf : strStarts "+++ ".data l = false := by
      cases l with
      | nil => rfl
      | cons c cs =>
          have h4 : (decide ('@' = c) && strStarts "@ -".data cs) = true :=
            parseHunkHeader_starts h
          rw [Bool.and_eq_true, decide_eq_true_eq] at h4
          exact strStarts_plus_cons c cs (by rw [← h4.1]; decide)
    simp [diffStep, hpf, h]
  · intro st content h
    have hph : parseHunkHeader ('+' :: content) = none :=
      parseHunkHeader_cons '+' content (by decide)
    simp [diffStep, h, hph]
  · intro st c cs hcp hcm hph hpf
    simp [diffStep, hpf, hph, hcp, hcm]

/-- Witness for C1: a hunk header resets the cursor, an added line is
emitted at the cursor, a context line only advances it. -/
theorem diff_line_numbering_witness :
    (diffStep ⟨some "test.py".data, 9, []⟩
        "@@ -1,3 +1,4 @@".data).current_line = 1 ∧
    diffStep ⟨some "t.py".data, 3, []⟩ ('+' :: "x".data) =
      ⟨some "t.py".data, 4, [⟨some "t.py".data, 3, "x".data⟩]⟩ ∧
    (diffStep ⟨some "t.py".data, 3, []⟩
        (' ' :: "ctx".data)).current_line = 4 :=
  ⟨(diff_line_numbering.2.1 ⟨some "test.py".data, 9, []⟩ _ 1 (by decide)).1,
   diff_line_numbering.2.2.1 ⟨some "t.py".data, 3, []⟩ "x".data (by decide),
   (diff_line_numbering.2.2.2.2 ⟨some "t.py".data, 3, []⟩ ' ' "ctx".data
     (by decide) (by decide) (by decide) (by decide)).1⟩

/-- C2: with a table mapping both the module `pkg_core.messages` and
the single symbol `pkg_core.messages.HumanMessage`, the line
`from pkg_core.messages import HumanMessage, AIMessage` yields exactly
one issue whose suggestion rewrites only the module component and keeps
the imported name list verbatim. -/
theorem matcher_module_rewrite_multi :
    (checkImportLine
        "from pkg_core.messages import HumanMessage, AIMessage".data
        [("pkg_core.messages".data, "pkg.messages".data),
         ("pkg_core.messages.HumanMessage".data,
           "pkg.messages.HumanMessage".data)]).map
        (fun i => (i.original, i.suggested)) =
      [("from pkg_core.messages import HumanMessage, AIMessage".data,
        "from pkg.messages import HumanMessage, AIMessage".data)] := by
  decide
